import Mathlib

/-!
# Verification of the xcli read/write client core

Shallow embedding of the xcli repository (src/xcli): the GraphQL request
engine (`graphql.py`), the response normalizer (`_parse_tweet`,
`_extract_timeline_tweets`), the query-id resolver cache (`query_ids.py`),
the v1.1 search fallback (`_search_v1`, `search`) and the chunked media
upload engine (`api.py`).

JSON values are modelled by the inductive `Json`; Python's `dict.get(k, d)`
becomes `Json.getD`, Python truthiness becomes `truthy`, and Python's
`a or b` becomes `Json.orD`.  Network I/O is modelled by oracles
(`Nat → HResp`): the n-th HTTP request of a run receives the n-th oracle
answer.  Each engine function returns, besides its outcome, the list of
observable effects (`Event` / `UEvent`) it performed, so that statements
such as "exactly one rescrape" or "no APPEND request" are about the trace.
Inputs on which the Python code would raise an uncaught type error
(e.g. calling `.get` on a non-dict) are given a total default here; all
theorems below concern inputs on which the two agree.
-/

namespace XCli

/-- JSON trees, as produced by `resp.json()` in the Python source. -/
inductive Json where
  | null : Json
  | bool (b : Bool) : Json
  | num (n : Int) : Json
  | str (s : String) : Json
  | arr (xs : List Json) : Json
  | obj (fs : List (String × Json)) : Json

/-- Decidable equality for `Json` (the `deriving` handler does not support
nested inductives, so it is spelled out). -/
def Json.decEq : (a b : Json) → Decidable (a = b)
  | .null, .null => isTrue rfl
  | .bool a, .bool b =>
      match Bool.decEq a b with
      | isTrue h => isTrue (by rw [h])
      | isFalse h => isFalse (fun hh => h (Json.bool.inj hh))
  | .num a, .num b =>
      match Int.instDecidableEq a b with
      | isTrue h => isTrue (by rw [h])
      | isFalse h => isFalse (fun hh => h (Json.num.inj hh))
  | .str a, .str b =>
      match String.decEq a b with
      | isTrue h => isTrue (by rw [h])
      | isFalse h => isFalse (fun hh => h (Json.str.inj hh))
  | .arr xs, .arr ys =>
      match decEqL xs ys with
      | isTrue h => isTrue (by rw [h])
      | isFalse h => isFalse (fun hh => h (Json.arr.inj hh))
  | .obj fs, .obj gs =>
      match decEqF fs gs with
      | isTrue h => isTrue (by rw [h])
      | isFalse h => isFalse (fun hh => h (Json.obj.inj hh))
  | .null, .bool _ => isFalse (fun h => Json.noConfusion h)
  | .null, .num _ => isFalse (fun h => Json.noConfusion h)
  | .null, .str _ => isFalse (fun h => Json.noConfusion h)
  | .null, .arr _ => isFalse (fun h => Json.noConfusion h)
  | .null, .obj _ => isFalse (fun h => Json.noConfusion h)
  | .bool _, .null => isFalse (fun h => Json.noConfusion h)
  | .bool _, .num _ => isFalse (fun h => Json.noConfusion h)
  | .bool _, .str _ => isFalse (fun h => Json.noConfusion h)
  | .bool _, .arr _ => isFalse (fun h => Json.noConfusion h)
  | .bool _, .obj _ => isFalse (fun h => Json.noConfusion h)
  | .num _, .null => isFalse (fun h => Json.noConfusion h)
  | .num _, .bool _ => isFalse (fun h => Json.noConfusion h)
  | .num _, .str _ => isFalse (fun h => Json.noConfusion h)
  | .num _, .arr _ => isFalse (fun h => Json.noConfusion h)
  | .num _, .obj _ => isFalse (fun h => Json.noConfusion h)
  | .str _, .null => isFalse (fun h => Json.noConfusion h)
  | .str _, .bool _ => isFalse (fun h => Json.noConfusion h)
  | .str _, .num _ => isFalse (fun h => Json.noConfusion h)
  | .str _, .arr _ => isFalse (fun h => Json.noConfusion h)
  | .str _, .obj _ => isFalse (fun h => Json.noConfusion h)
  | .arr _, .null => isFalse (fun h => Json.noConfusion h)
  | .arr _, .bool _ => isFalse (fun h => Json.noConfusion h)
  | .arr _, .num _ => isFalse (fun h => Json.noConfusion h)
  | .arr _, .str _ => isFalse (fun h => Json.noConfusion h)
  | .arr _, .obj _ => isFalse (fun h => Json.noConfusion h)
  | .obj _, .null => isFalse (fun h => Json.noConfusion h)
  | .obj _, .bool _ => isFalse (fun h => Json.noConfusion h)
  | .obj _, .num _ => isFalse (fun h => Json.noConfusion h)
  | .obj _, .str _ => isFalse (fun h => Json.noConfusion h)
  | .obj _, .arr _ => isFalse (fun h => Json.noConfusion h)
where
  decEqL : (xs ys : List Json) → Decidable (xs = ys)
    | [], [] => isTrue rfl
    | x :: xs, y :: ys =>
      match Json.decEq x y, decEqL xs ys with
      | isTrue h1, isTrue h2 => isTrue (by rw [h1, h2])
      | isFalse h1, _ => isFalse (fun hh => h1 (List.cons.inj hh).1)
      | _, isFalse h2 => isFalse (fun hh => h2 (List.cons.inj hh).2)
    | [], _ :: _ => isFalse (fun h => List.noConfusion h)
    | _ :: _, [] => isFalse (fun h => List.noConfusion h)
  decEqF : (xs ys : List (String × Json)) → Decidable (xs = ys)
    | [], [] => isTrue rfl
    | (k, v) :: xs, (k', v') :: ys =>
      match String.decEq k k', Json.decEq v v', decEqF xs ys with
      | isTrue h1, isTrue h2, isTrue h3 => isTrue (by rw [h1, h2, h3])
      | isFalse h1, _, _ => isFalse (fun hh => h1 (congrArg Prod.fst (List.cons.inj hh).1))
      | _, isFalse h2, _ => isFalse (fun hh => h2 (congrArg Prod.snd (List.cons.inj hh).1))
      | _, _, isFalse h3 => isFalse (fun hh => h3 (List.cons.inj hh).2)
    | [], _ :: _ => isFalse (fun h => List.noConfusion h)
    | _ :: _, [] => isFalse (fun h => List.noConfusion h)

instance : DecidableEq Json := Json.decEq

/-- First binding of a key in an object's field list (Python dict lookup). -/
def lookupField : List (String × Json) → String → Option Json
  | [], _ => none
  | (k, v) :: rest, key => if k = key then some v else lookupField rest key

/-- `d.get(key, default)`: field lookup with a default. -/
def Json.getD (j : Json) (key : String) (dflt : Json) : Json :=
  match j with
  | .obj fs =>
      match lookupField fs key with
      | some v => v
      | none => dflt
  | _ => dflt

/-- Python truthiness of a JSON value (`if x:`). -/
def truthy : Json → Bool
  | .null => false
  | .bool b => b
  | .num n => n != 0
  | .str s => s != ""
  | .arr xs => !xs.isEmpty
  | .obj fs => !fs.isEmpty

/-- Python's `a or b`. -/
def Json.orD (a b : Json) : Json := if truthy a then a else b

/-- Treat a JSON value as a list (iteration over a JSON array). -/
def toArr : Json → List Json
  | .arr xs => xs
  | _ => []

/-- Python `int(...)` on the JSON values this code feeds it. -/
def pyInt : Json → Int
  | .num n => n
  | .str s => (s.toInt?).getD 0
  | .bool b => if b then 1 else 0
  | _ => 0

/-- Concatenation of the per-element results (Python list accumulation). -/
def concatMap (f : α → List β) : List α → List β
  | [] => []
  | x :: xs => f x ++ concatMap f xs

/-! ## Response normalizer (`graphql.py` lines 204-342) -/

/-- The `{username, name}` pair built by `_extract_user_info`. -/
structure UserInfo where
  username : Json
  name : Json
deriving DecidableEq

/-- `_extract_user_info`: prefer `core` over `legacy` for both fields. -/
def extractUserInfo (userResult : Json) : UserInfo :=
  let core := userResult.getD "core" (.obj [])
  let legacy := userResult.getD "legacy" (.obj [])
  { username := (core.getD "screen_name" .null).orD (legacy.getD "screen_name" (.str "")),
    name := (core.getD "name" .null).orD (legacy.getD "name" (.str "")) }

/-- The normalized tweet record returned by `_parse_tweet` / `_search_v1`. -/
structure Tweet where
  id : Json
  text : Json
  author : UserInfo
  retweetedBy : Json
  createdAt : Json
  replyCount : Json
  likeCount : Json
  retweetCount : Json
  viewCount : Int
deriving DecidableEq

/-- The `__typename == "TweetWithVisibilityResults"` unwrapping step. -/
def unwrapVisibility (r : Json) : Json :=
  if r.getD "__typename" .null = .str "TweetWithVisibilityResults" then r.getD "tweet" r else r

/-- The local state of `_parse_tweet` after wrapper unwrapping and the
retweet switch: the `legacy`/`result` nodes the record is read from, the
author, and the retweet attribution. -/
structure TweetParts where
  legacy : Json
  result : Json
  author : UserInfo
  retweetedBy : Json
deriving DecidableEq

/-- `_parse_tweet` lines 227-253: unwrap `tweet_results`/`result`,
unwrap `TweetWithVisibilityResults`, then — if the node carries a truthy
`legacy.retweeted_status_result.result` — switch every content field to the
inner (original) tweet, keeping the outer author as `retweetedBy`. -/
def tweetParts (raw : Json) : TweetParts :=
  let result := unwrapVisibility ((raw.getD "tweet_results" raw).getD "result" raw)
  let legacy := result.getD "legacy" (.obj [])
  let core := result.getD "core" (.obj [])
  let outerUser := extractUserInfo ((core.getD "user_results" (.obj [])).getD "result" (.obj []))
  let rtResult := (legacy.getD "retweeted_status_result" (.obj [])).getD "result" (.obj [])
  if truthy rtResult then
    let rt := unwrapVisibility rtResult
    { legacy := rt.getD "legacy" (.obj []),
      result := rt,
      author :=
        extractUserInfo (((rt.getD "core" (.obj [])).getD "user_results" (.obj [])).getD
          "result" (.obj [])),
      retweetedBy := outerUser.username }
  else
    { legacy := legacy, result := result, author := outerUser, retweetedBy := .null }

/-- The `full_text` value `_parse_tweet` gates on (after any repost switch). -/
def resolvedText (raw : Json) : Json :=
  (tweetParts raw).legacy.getD "full_text" (.str "")

/-- `_parse_tweet`: `None` when the resolved text is falsy, otherwise the
normalized record. -/
def parseTweet (raw : Json) : Option Tweet :=
  let p := tweetParts raw
  let text := p.legacy.getD "full_text" (.str "")
  if truthy text then
    some { id := p.legacy.getD "id_str" (p.result.getD "rest_id" (.str "")),
           text := text,
           author := p.author,
           retweetedBy := p.retweetedBy,
           createdAt := p.legacy.getD "created_at" (.str ""),
           replyCount := p.legacy.getD "reply_count" (.num 0),
           likeCount := p.legacy.getD "favorite_count" (.num 0),
           retweetCount := p.legacy.getD "retweet_count" (.num 0),
           viewCount := pyInt (((p.result.getD "views" (.obj [])).getD "count"
             (.num 0)).orD (.num 0)) }
  else none

mutual

/-- `_find_instructions`: depth-first search for the first `"instructions"`
key, recursing into object values only; a child result counts only when
non-empty. -/
def findInstructions : Json → List Json
  | .obj fs =>
      match lookupField fs "instructions" with
      | some v => toArr v
      | none => findInstructionsList fs
  | _ => []

/-- Scan the values of an object, in order, keeping the first non-empty
recursive find (the `if result: return result` loop). -/
def findInstructionsList : List (String × Json) → List Json
  | [] => []
  | (_, v) :: rest =>
      let r := findInstructions v
      if r.isEmpty then findInstructionsList rest else r

end

/-- The tweets contributed by one timeline entry: the direct
`content.itemContent` when it is a `TimelineTweet`, then the module
sub-items (`content.items[].item.itemContent`). -/
def entryTweets (entry : Json) : List Tweet :=
  let content := entry.getD "content" (.obj [])
  let itemContent := content.getD "itemContent" (.obj [])
  let direct :=
    if itemContent.getD "itemType" .null = .str "TimelineTweet" then
      (parseTweet itemContent).toList
    else []
  let modules :=
    concatMap
      (fun item =>
        if ((item.getD "item" (.obj [])).getD "itemContent" (.obj [])).getD
            "itemType" .null = .str "TimelineTweet" then
          (parseTweet ((item.getD "item" (.obj [])).getD "itemContent" (.obj []))).toList
        else [])
      (toArr (content.getD "items" (.arr [])))
  direct ++ modules

/-- `_extract_timeline_tweets`: for each instruction of the requested type,
collect the tweets of each of its entries. -/
def extractTimelineTweets (data : Json) (instructionType : String) : List Tweet :=
  concatMap
    (fun ins =>
      if ins.getD "type" .null = .str instructionType then
        concatMap entryTweets (toArr (ins.getD "entries" (.arr [])))
      else [])
    (findInstructions data)

/-! ## GraphQL request engine (`graphql.py` lines 84-196)

The HTTP transport is an oracle `net : Nat → HResp`; request number `k`
of a run receives `net k`.  Cookie and cache side effects are recorded in
the event trace. -/

/-- HTTP method of an attempt. -/
inductive Method where
  | get : Method
  | post : Method
deriving DecidableEq

/-- Answer of the transport to one request: a status-coded response with a
JSON body, or a raised `requests.RequestException`. -/
inductive HResp where
  | resp (status : Nat) (body : Json) : HResp
  | exn : HResp
deriving DecidableEq

/-- Observable effects of the request engine. -/
inductive Event where
  | request (m : Method) (qid : String) : Event
  | clearCookies : Event
  | refreshCookies : Event
  | invalidateCache : Event
  | rescrape : Event
deriving DecidableEq

/-- Typed failures raised along the read path. -/
inductive Failure where
  | sessionExpired : Failure
  | rateLimited : Failure
  | allFailed : Failure
  | transportErr : Failure
  | exhausted : Failure
  | v1Failed (status : Nat) : Failure
deriving DecidableEq

/-- Control-flow outcome of one candidate attempt inside `_try_query_ids`:
`cont is404` continues the loop (`is404` tells whether the attempt counts
towards `all_404`), `done` returns the body, `fatal` raises. -/
inductive StepRes where
  | cont (is404 : Bool) : StepRes
  | done (body : Json) : StepRes
  | fatal (e : Failure) : StepRes
deriving DecidableEq

/-- One candidate attempt: result, next request counter, events. -/
structure Step where
  res : StepRes
  next : Nat
  events : List Event
deriving DecidableEq

/-- The body of the inner `for qid in attempts` loop of `_try_query_ids`
(lines 99-139): send; a transport error or a non-matching status advances
to the next candidate; 404 keeps `all_404`; 401 clears the cookie cache,
refreshes, and retries the same candidate once with the same method, a
second 401 raising the session-expired error; 429 raises the rate-limited
error; 200 returns the body. -/
def stepCandidate (m : Method) (qid : String) (net : Nat → HResp) (k : Nat) : Step :=
  match net k with
  | .exn => ⟨.cont false, k + 1, [.request m qid]⟩
  | .resp s b =>
    if s = 404 then ⟨.cont true, k + 1, [.request m qid]⟩
    else if s = 401 then
      let evs := [Event.request m qid, .clearCookies, .refreshCookies, .request m qid]
      match net (k + 1) with
      | .exn => ⟨.fatal .transportErr, k + 2, evs⟩
      | .resp s2 b2 =>
        if s2 = 401 then ⟨.fatal .sessionExpired, k + 2, evs⟩
        else if s2 = 429 then ⟨.fatal .rateLimited, k + 2, evs⟩
        else if s2 = 200 then ⟨.done b2, k + 2, evs⟩
        else ⟨.cont false, k + 2, evs⟩
    else if s = 429 then ⟨.fatal .rateLimited, k + 1, [.request m qid]⟩
    else if s = 200 then ⟨.done b, k + 1, [.request m qid]⟩
    else ⟨.cont false, k + 1, [.request m qid]⟩

/-- Result of one whole method pass: the loop fell through with `all_404`
still true, fell through with it false, returned a body, or raised. -/
inductive PassRes where
  | fell404 : PassRes
  | fellNot404 : PassRes
  | done (body : Json) : PassRes
  | fatal (e : Failure) : PassRes
deriving DecidableEq

/-- A finished pass/run: result, next request counter, events. -/
structure PassOut where
  res : PassRes
  next : Nat
  events : List Event
deriving DecidableEq

/-- One method pass of `_try_query_ids` over its candidate list, carrying
the `all_404` flag. -/
def passLoop (m : Method) (qids : List String) (net : Nat → HResp) (k : Nat)
    (all404 : Bool) : PassOut :=
  match qids with
  | [] => ⟨if all404 then .fell404 else .fellNot404, k, []⟩
  | q :: rest =>
    let s := stepCandidate m q net k
    match s.res with
    | .done b => ⟨.done b, s.next, s.events⟩
    | .fatal e => ⟨.fatal e, s.next, s.events⟩
    | .cont is404 =>
      let p := passLoop m rest net s.next (all404 && is404)
      ⟨p.res, p.next, s.events ++ p.events⟩

/-- Result of `_try_query_ids`: a body, the `None` all-404 signal, or a
raised failure. -/
inductive TryRes where
  | success (body : Json) : TryRes
  | all404 : TryRes
  | fatal (e : Failure) : TryRes
deriving DecidableEq

/-- A finished `_try_query_ids` call. -/
structure TryOut where
  res : TryRes
  next : Nat
  events : List Event
deriving DecidableEq

/-- `_try_query_ids` (lines 84-152): a GET pass over the candidates, then —
only when every GET attempt 404'd and a JSON body is supported — a POST
pass over the same candidates; a pass that ends with `all_404` false raises
the all-failed error, and if both passes 404 the call returns the `None`
signal when the candidate list is non-empty and raises otherwise. -/
def tryQueryIds (ids : List String) (hasBody : Bool) (net : Nat → HResp) (k : Nat) :
    TryOut :=
  let p1 := passLoop .get ids net k true
  match p1.res with
  | .done b => ⟨.success b, p1.next, p1.events⟩
  | .fatal e => ⟨.fatal e, p1.next, p1.events⟩
  | .fellNot404 => ⟨.fatal .allFailed, p1.next, p1.events⟩
  | .fell404 =>
    let p2 := passLoop .post (if hasBody then ids else []) net p1.next true
    match p2.res with
    | .done b => ⟨.success b, p2.next, p1.events ++ p2.events⟩
    | .fatal e => ⟨.fatal e, p2.next, p1.events ++ p2.events⟩
    | .fellNot404 => ⟨.fatal .allFailed, p2.next, p1.events ++ p2.events⟩
    | .fell404 =>
      if ids.isEmpty then ⟨.fatal .allFailed, p2.next, p1.events ++ p2.events⟩
      else ⟨.all404, p2.next, p1.events ++ p2.events⟩

/-- The second pass of `_graphql_request` (lines 185-196): invalidate the
query-id cache, rescrape (`freshIds` is what `scrape_query_ids` returned),
and — when the rescrape produced candidates — retry them, raising the final
exhaustion error when they again all 404 or when nothing was scraped. -/
def rescrapePass (freshIds : List String) (net : Nat → HResp) (k : Nat) :
    (Json ⊕ Failure) × List Event :=
  if freshIds.isEmpty then (.inr .exhausted, [.invalidateCache, .rescrape])
  else
    let t := tryQueryIds freshIds true net k
    match t.res with
    | .success b => (.inl b, .invalidateCache :: .rescrape :: t.events)
    | .fatal e => (.inr e, .invalidateCache :: .rescrape :: t.events)
    | .all404 => (.inr .exhausted, .invalidateCache :: .rescrape :: t.events)

/-- `_graphql_request` (lines 155-196): pass 1 over the fast-path
candidates `ids` (from `get_query_ids`; skipped when empty), then — only on
the all-404 signal — the invalidate-and-rescrape pass.  The JSON body is
always supplied, so POST retry is always enabled. -/
def graphqlRequest (ids freshIds : List String) (net : Nat → HResp) :
    (Json ⊕ Failure) × List Event :=
  if ids.isEmpty then rescrapePass freshIds net 0
  else
    let t := tryQueryIds ids true net 0
    match t.res with
    | .success b => (.inl b, t.events)
    | .fatal e => (.inr e, t.events)
    | .all404 =>
      let r := rescrapePass freshIds net t.next
      (r.1, t.events ++ r.2)

/-- Occurrences of one event in a trace. -/
def countEv (e : Event) : List Event → Nat
  | [] => 0
  | x :: xs => (if x = e then 1 else 0) + countEv e xs

/-! ## v1.1 search fallback and `search` (`graphql.py` lines 350-421) -/

/-- One v1.1 status object, normalized (lines 390-405): literal `0` for
`replyCount` and `viewCount`, `None` for `retweetedBy`. -/
def v1Status (status : Json) : Tweet :=
  let user := status.getD "user" (.obj [])
  { id := status.getD "id_str" (.str ""),
    text := status.getD "full_text" (.str ""),
    author := { username := user.getD "screen_name" (.str ""),
                name := user.getD "name" (.str "") },
    retweetedBy := .null,
    createdAt := status.getD "created_at" (.str ""),
    replyCount := .num 0,
    likeCount := status.getD "favorite_count" (.num 0),
    retweetCount := status.getD "retweet_count" (.num 0),
    viewCount := 0 }

/-- The status checks of `_search_v1` after any 401 retry: 429 raises the
rate-limited error, any other non-200 raises, 200 parses `statuses` and
truncates to `count`. -/
def v1Finish (s : Nat) (b : Json) (n count : Nat) : (List Tweet ⊕ Failure) × Nat :=
  if s = 429 then (.inr .rateLimited, n)
  else if s ≠ 200 then (.inr (.v1Failed s), n)
  else (.inl (((toArr (b.getD "statuses" (.arr []))).map v1Status).take count), n)

/-- `_search_v1` over its own transport oracle; the second component counts
the requests issued.  A 401 triggers one cookie refresh and retry; a second
401 raises the session-expired error. -/
def searchV1 (count : Nat) (v1net : Nat → HResp) : (List Tweet ⊕ Failure) × Nat :=
  match v1net 0 with
  | .exn => (.inr .transportErr, 1)
  | .resp s b =>
    if s = 401 then
      match v1net 1 with
      | .exn => (.inr .transportErr, 2)
      | .resp s2 b2 =>
        if s2 = 401 then (.inr .sessionExpired, 2)
        else v1Finish s2 b2 2 count
    else v1Finish s b 1 count

/-- `search` (lines 409-421): the GraphQL path, and on any exception the
v1.1 fallback — whose own outcome (value or failure) is the caller's. -/
def search (count : Nat) (ids freshIds : List String) (net v1net : Nat → HResp) :
    List Tweet ⊕ Failure :=
  match (graphqlRequest ids freshIds net).1 with
  | .inl data => .inl ((extractTimelineTweets data "TimelineAddEntries").take count)
  | .inr _ => (searchV1 count v1net).1

/-! ## Query-ID resolver cache (`query_ids.py` lines 70-202) -/

/-- `_CACHE_TTL = 86400` (24 hours). -/
def CACHE_TTL : Int := 86400

/-- `_load_cache`: `none` models a missing/unreadable/corrupt cache file;
a stored tree whose `_scraped_at` (default 0) is more than the TTL before
`now` is treated as absent. -/
def loadCache (file : Option Json) (now : Int) : Option Json :=
  match file with
  | none => none
  | some d =>
    if now - pyInt (d.getD "_scraped_at" (.num 0)) > CACHE_TTL then none else some d

/-- The `seen`-guarded append of `get_query_ids` / `scrape_query_ids`. -/
def addUnique (acc : List Json) (q : Json) : List Json :=
  if q ∈ acc then acc else acc ++ [q]

/-- `get_query_ids` (lines 180-202): the fresh cached id for the operation
first (when the cache loads, is truthy, and holds a truthy entry), then the
hardcoded fallbacks, deduplicated in order. -/
def getQueryIds (op : String) (hardcoded : List Json) (file : Option Json)
    (now : Int) : List Json :=
  let start : List Json :=
    match loadCache file now with
    | some c =>
      if truthy c then
        let cid := c.getD op .null
        if truthy cid then [cid] else []
      else []
    | none => []
  hardcoded.foldl addUnique start

/-! ## Chunked upload engine (`api.py`) -/

/-- `CHUNK_SIZE = 4 * 1024 * 1024`. -/
def CHUNK_SIZE : Nat := 4 * 1024 * 1024

/-- `SIMPLE_UPLOAD_MAX_BYTES = 5 * 1024 * 1024`. -/
def SIMPLE_UPLOAD_MAX_BYTES : Nat := 5 * 1024 * 1024

/-- `IMAGE_EXTENSIONS`. -/
def IMAGE_EXTENSIONS : List String := [".jpg", ".jpeg", ".png", ".webp"]

/-- `VIDEO_EXTENSIONS`. -/
def VIDEO_EXTENSIONS : List String := [".mp4", ".mov"]

/-- `GIF_EXTENSIONS`. -/
def GIF_EXTENSIONS : List String := [".gif"]

/-- The media-category derivation of `upload_media` (lines 83-88):
video and gif extensions get their categories, everything else is
`tweet_image`. -/
def mediaCategory (ext : String) : String :=
  if ext ∈ VIDEO_EXTENSIONS then "tweet_video"
  else if ext ∈ GIF_EXTENSIONS then "tweet_gif"
  else "tweet_image"

/-- Observable requests/suspensions of the upload engine. -/
inductive UEvent where
  | simpleReq : UEvent
  | initReq : UEvent
  | appendReq (idx size : Nat) : UEvent
  | finalizeReq : UEvent
  | sleeps (secs : Json) : UEvent
  | statusReq : UEvent
deriving DecidableEq

/-- Terminal outcome of an upload. -/
inductive UOutcome where
  | okId (id : Json) : UOutcome
  | procFailed (msg : Json) : UOutcome
  | outOfFuel : UOutcome
deriving DecidableEq

/-- The APPEND loop of `_chunked_upload` (lines 137-151): each iteration
reads `min CHUNK_SIZE remaining` bytes and sends them under the current
segment index.  The loop runs at most `fuel` iterations; any
`fuel ≥ remaining` is enough, since a chunk holds at least one byte. -/
def appendEventsAux : Nat → Nat → Nat → List UEvent
  | 0, _, _ => []
  | fuel + 1, remaining, idx =>
    if remaining = 0 then []
    else .appendReq idx (min CHUNK_SIZE remaining) ::
      appendEventsAux fuel (remaining - CHUNK_SIZE) (idx + 1)

/-- The APPEND requests for a file of `fileSize` bytes, starting at
segment index `idx`. -/
def appendEvents (fileSize idx : Nat) : List UEvent :=
  appendEventsAux fileSize fileSize idx

/-- `processing_info.get("state")`. -/
def pollState (pi : Json) : Json := pi.getD "state" .null

/-- The server message surfaced on failure (line 166):
`processing_info.get("error", {}).get("message", "Unknown error")`. -/
def pollMsg (pi : Json) : Json :=
  (pi.getD "error" (.obj [])).getD "message" (.str "Unknown error")

/-- `processing_info.get("check_after_secs", 5)`. -/
def pollWait (pi : Json) : Json := pi.getD "check_after_secs" (.num 5)

/-- The STATUS poll loop of `_chunked_upload` (lines 163-177): while the
processing metadata is truthy and its state is not `"succeeded"`, a
`"failed"` state raises immediately; otherwise sleep the server-specified
interval, poll STATUS (the `k`-th poll response is `polls k`) and continue
with its `processing_info`.  `fuel` bounds the number of polls; the Python
loop is unbounded. -/
def pollLoop (mediaId pinfo : Json) (polls : Nat → Json) (k fuel : Nat) :
    UOutcome × List UEvent :=
  if ¬ truthy pinfo ∨ pollState pinfo = .str "succeeded" then (.okId mediaId, [])
  else if pollState pinfo = .str "failed" then (.procFailed (pollMsg pinfo), [])
  else
    match fuel with
    | 0 => (.outOfFuel, [])
    | fuel' + 1 =>
      let next :=
        pollLoop mediaId ((polls k).getD "processing_info" .null) polls (k + 1) fuel'
      (next.1, .sleeps (pollWait pinfo) :: .statusReq :: next.2)
termination_by fuel

/-- `_chunked_upload` (lines 112-179): INIT (whose response carries the
media id), the APPEND loop, FINALIZE (whose response may carry processing
metadata), then the STATUS poll loop. -/
def chunkedUpload (fileSize : Nat) (initResp finalizeResp : Json)
    (polls : Nat → Json) (fuel : Nat) : UOutcome × List UEvent :=
  let mediaId := initResp.getD "id" .null
  let p := pollLoop mediaId (finalizeResp.getD "processing_info" .null) polls 0 fuel
  (p.1, .initReq :: (appendEvents fileSize 0 ++ [.finalizeReq] ++ p.2))

/-- `upload_media` (lines 76-92): files of category `tweet_image` at or
below the simple-upload threshold take the single-request path, whose
response's `id` is returned; everything else takes the chunked state
machine.  `ext` is the already-lowercased extension, as the source computes
it on line 80 before any use. -/
def uploadMedia (ext : String) (fileSize : Nat)
    (simpleResp initResp finalizeResp : Json) (polls : Nat → Json) (fuel : Nat) :
    UOutcome × List UEvent :=
  if mediaCategory ext = "tweet_image" ∧ fileSize ≤ SIMPLE_UPLOAD_MAX_BYTES then
    (.okId (simpleResp.getD "id" .null), [.simpleReq])
  else chunkedUpload fileSize initResp finalizeResp polls fuel

/-- The `(segment_index, size)` pairs of the APPEND requests in a trace. -/
def appendsOf (evs : List UEvent) : List (Nat × Nat) :=
  evs.filterMap fun e =>
    match e with
    | .appendReq i s => some (i, s)
    | _ => none

/-! ## Test-input families -/

/-- A tweet node whose outer `legacy` starts with a retweeted-status
wrapper holding `rt`, whose outer `core` is `outerCore`, and whose outer
`legacy` carries arbitrary further fields `rest`. -/
def mkOuterRetweet (rt outerCore : Json) (rest : List (String × Json)) : Json :=
  .obj [("legacy",
          .obj (("retweeted_status_result", .obj [("result", rt)]) :: rest)),
        ("core", outerCore)]

/-- A timeline response holding one instruction of type `ty` with the given
entries, nested one object deep as the endpoints nest it. -/
def mkTimeline (ty : String) (entries : List Json) : Json :=
  .obj [("data", .obj [("instructions",
    .arr [.obj [("type", .str ty), ("entries", .arr entries)]])])]

/-- Processing metadata on which the STATUS loop keeps polling: truthy and
neither succeeded nor failed. -/
def inProgress (pinfo : Json) : Prop :=
  truthy pinfo = true ∧ pollState pinfo ≠ .str "succeeded" ∧
    pollState pinfo ≠ .str "failed"

/-! ## Helper lemmas -/

theorem countEv_append (e : Event) (a b : List Event) :
    countEv e (a ++ b) = countEv e a + countEv e b := by
  induction a with
  | nil => simp [countEv]
  | cons x xs ih => simp [countEv, ih]; omega

/-- Every candidate attempt emits either the single request or the
refresh-and-retry quadruple. -/
theorem stepCandidate_events (m : Method) (q : String) (net : Nat → HResp) (k : Nat) :
    (stepCandidate m q net k).events = [.request m q] ∨
    (stepCandidate m q net k).events =
      [.request m q, .clearCookies, .refreshCookies, .request m q] := by
  unfold stepCandidate
  rcases net k with ⟨s, b⟩ | _
  · rcases net (k + 1) with ⟨s2, b2⟩ | _ <;> dsimp only <;> split_ifs <;> simp
  · simp

/-- Candidate attempts never touch the query-id cache. -/
theorem stepCandidate_no_cache_events (m : Method) (q : String) (net : Nat → HResp)
    (k : Nat) :
    countEv .rescrape (stepCandidate m q net k).events = 0 ∧
    countEv .invalidateCache (stepCandidate m q net k).events = 0 := by
  rcases stepCandidate_events m q net k with h | h <;> rw [h] <;> simp [countEv]

/-- A method pass never touches the query-id cache. -/
theorem passLoop_no_cache_events (m : Method) (qids : List String) (net : Nat → HResp)
    (k : Nat) (flag : Bool) :
    countEv .rescrape (passLoop m qids net k flag).events = 0 ∧
    countEv .invalidateCache (passLoop m qids net k flag).events = 0 := by
  induction qids generalizing k flag with
  | nil => simp [passLoop, countEv]
  | cons q rest ih =>
    have hs := stepCandidate_no_cache_events m q net k
    rcases hres : (stepCandidate m q net k).res with is404 | b | e <;>
      simp only [passLoop, hres] <;>
      simp [countEv_append, hs.1, hs.2, (ih _ _).1, (ih _ _).2]

/-- `_try_query_ids` never touches the query-id cache. -/
theorem tryQueryIds_no_cache_events (ids : List String) (hasBody : Bool)
    (net : Nat → HResp) (k : Nat) :
    countEv .rescrape (tryQueryIds ids hasBody net k).events = 0 ∧
    countEv .invalidateCache (tryQueryIds ids hasBody net k).events = 0 := by
  have h1 := passLoop_no_cache_events .get ids net k true
  have h2 := fun l => passLoop_no_cache_events .post l net
    (passLoop .get ids net k true).next true
  rcases hres : (passLoop .get ids net k true).res with _ | _ | b | e <;>
    simp only [tryQueryIds, hres] <;> try exact h1
  rcases hres2 : (passLoop .post (if hasBody then ids else []) net
      (passLoop .get ids net k true).next true).res with _ | _ | b2 | e2 <;>
    simp only [hres2] <;> split_ifs <;>
    simp [countEv_append, h1.1, h1.2, (h2 _).1, (h2 _).2]

/-! ## C1: one rescrape after an all-404 first pass -/

/-- C1 (counterexample): with one fast-path candidate that 404s over both
GET and POST and a rescraped candidate that answers 429, the first pass is
all-404 yet `_graphql_request` neither returns JSON nor fails with an
all-identifiers-exhausted error — it raises the rate-limited error. -/
theorem graphql_request_rescrape_retry_not_only_exhaustion :
    (tryQueryIds ["a"] true
      (fun kk => if kk ≤ 1 then .resp 404 .null else .resp 429 .null) 0).res = .all404 ∧
    (graphqlRequest ["a"] ["b"]
      (fun kk => if kk ≤ 1 then .resp 404 .null else .resp 429 .null)).1 =
      .inr .rateLimited ∧
    Failure.rateLimited ≠ .exhausted ∧ Failure.rateLimited ≠ .allFailed := by
  decide

/-- C1 (amended): if the whole first pass signals all-404,
`_graphql_request` invalidates the query-id cache and performs exactly one
rescrape — never a second — and then behaves as the retry over the
rescraped candidate set does: a successful retry's JSON is returned, an
empty rescrape or a second all-404 raises the exhaustion error, and a
failure raised by the retry pass (rate-limited, session-expired,
all-failed, transport) propagates as that failure. -/
theorem graphql_request_single_rescrape (ids freshIds : List String)
    (net : Nat → HResp) (hne : ids ≠ [])
    (h404 : (tryQueryIds ids true net 0).res = .all404) :
    countEv .rescrape (graphqlRequest ids freshIds net).2 = 1 ∧
    countEv .invalidateCache (graphqlRequest ids freshIds net).2 = 1 ∧
    (freshIds = [] → (graphqlRequest ids freshIds net).1 = .inr .exhausted) ∧
    (freshIds ≠ [] →
      (∀ b, (tryQueryIds freshIds true net (tryQueryIds ids true net 0).next).res =
          .success b → (graphqlRequest ids freshIds net).1 = .inl b) ∧
      ((tryQueryIds freshIds true net (tryQueryIds ids true net 0).next).res =
          .all404 → (graphqlRequest ids freshIds net).1 = .inr .exhausted) ∧
      (∀ e, (tryQueryIds freshIds true net (tryQueryIds ids true net 0).next).res =
          .fatal e → (graphqlRequest ids freshIds net).1 = .inr e)) := by
  have hids : ids.isEmpty = false := by
    cases ids with
    | nil => exact absurd rfl hne
    | cons a l => rfl
  have ht1 := tryQueryIds_no_cache_events ids true net 0
  have ht2 := tryQueryIds_no_cache_events freshIds true net
    (tryQueryIds ids true net 0).next
  have hrun : graphqlRequest ids freshIds net =
      ((rescrapePass freshIds net (tryQueryIds ids true net 0).next).1,
        (tryQueryIds ids true net 0).events ++
          (rescrapePass freshIds net (tryQueryIds ids true net 0).next).2) := by
    simp [graphqlRequest, hids, h404]
  by_cases hf : freshIds = []
  · subst hf
    simp [hrun, rescrapePass, countEv_append, countEv, ht1.1, ht1.2]
  · have hfe : freshIds.isEmpty = false := by
      cases freshIds with
      | nil => exact absurd rfl hf
      | cons a l => rfl
    rcases h2 : (tryQueryIds freshIds true net (tryQueryIds ids true net 0).next).res
        with b | _ | e <;>
      simp [hrun, rescrapePass, hfe, h2, countEv_append, countEv,
        ht1.1, ht1.2, ht2.1, ht2.2, hf]

/-- C1 (witness): a run whose first pass all-404s and whose rescraped
candidate succeeds performs exactly one rescrape. -/
theorem graphql_request_single_rescrape_witness :
    countEv .rescrape (graphqlRequest ["a"] ["b"]
      (fun kk => if kk ≤ 1 then .resp 404 .null else .resp 200 (.obj []))).2 = 1 :=
  (graphql_request_single_rescrape ["a"] ["b"]
    (fun kk => if kk ≤ 1 then .resp 404 .null else .resp 200 (.obj []))
    (by decide) (by decide)).1

/-! ## C2: exactly one refresh-and-retry on 401 -/

/-- C2: a 401 on a candidate makes the engine clear the cookie cache,
refresh, and retry the same candidate with the same method exactly once
(the trace of the attempt is exactly request, clear, refresh, request);
if the retry also answers 401, the attempt raises the session-expired
error, so no further refresh or retry happens for that candidate. -/
theorem candidate_401_single_refresh_retry (m : Method) (qid : String)
    (net : Nat → HResp) (k : Nat) (b : Json) (h : net k = .resp 401 b) :
    (stepCandidate m qid net k).events =
      [.request m qid, .clearCookies, .refreshCookies, .request m qid] ∧
    countEv .clearCookies (stepCandidate m qid net k).events = 1 ∧
    countEv .refreshCookies (stepCandidate m qid net k).events = 1 ∧
    countEv (.request m qid) (stepCandidate m qid net k).events = 2 ∧
    (∀ b2, net (k + 1) = .resp 401 b2 →
      (stepCandidate m qid net k).res = .fatal .sessionExpired) := by
  have hev : (stepCandidate m qid net k).events =
      [.request m qid, .clearCookies, .refreshCookies, .request m qid] := by
    rcases h2 : net (k + 1) with ⟨s2, b2⟩ | _
    · simp only [stepCandidate, h, h2]
      norm_num
      split_ifs <;> rfl
    · simp [stepCandidate, h, h2]
  refine ⟨hev, by simp [hev, countEv], by simp [hev, countEv], by simp [hev, countEv],
    fun b2 h2 => ?_⟩
  simp [stepCandidate, h, h2]

/-- C2 (witness): two consecutive 401s on a candidate end in the
session-expired failure after the single refresh-and-retry. -/
theorem candidate_401_single_refresh_retry_witness :
    (stepCandidate .get "q" (fun _ => .resp 401 .null) 0).res =
      .fatal .sessionExpired ∧
    countEv .clearCookies (stepCandidate .get "q" (fun _ => .resp 401 .null) 0).events
      = 1 :=
  ⟨(candidate_401_single_refresh_retry .get "q" (fun _ => .resp 401 .null) 0 .null
      (by decide)).2.2.2.2 .null (by decide),
   (candidate_401_single_refresh_retry .get "q" (fun _ => .resp 401 .null) 0 .null
      (by decide)).2.1⟩

/-! ## C3: 429 handling -/

/-- C3 (counterexample): `search` is a read operation, yet when its
GraphQL path is rate-limited (the very first request answers 429) the 429
is not surfaced: `search` silently retries through the v1.1 REST path and
returns its (here empty) result. -/
theorem search_does_not_surface_429 :
    (graphqlRequest ["q"] ["r"] (fun _ => .resp 429 .null)).1 = .inr .rateLimited ∧
    search 10 ["q"] ["r"] (fun _ => .resp 429 .null)
      (fun _ => .resp 200 (.obj [("statuses", .arr [])])) = .inl [] ∧
    (Sum.inl [] : List Tweet ⊕ Failure) ≠ .inr .rateLimited := by
  decide

/-- C3 (amended): inside the GraphQL engine a 429 — whether on a first
attempt or on the post-401 retry — raises the rate-limited error at once:
the pass stops with no request to any further candidate, `_try_query_ids`
propagates it without a POST pass, and `_graphql_request` propagates it
without a rescrape; `_search_v1` likewise surfaces its own 429 without
retrying.  The `search` operation, however, catches the engine's failure
and falls back to the v1.1 path (see the counterexample). -/
theorem rate_limited_immediate_no_retry :
    (∀ (m : Method) (q : String) (rest : List String) (net : Nat → HResp)
        (k : Nat) (flag : Bool) (b : Json), net k = .resp 429 b →
      passLoop m (q :: rest) net k flag =
        ⟨.fatal .rateLimited, k + 1, [.request m q]⟩) ∧
    (∀ (m : Method) (q : String) (rest : List String) (net : Nat → HResp)
        (k : Nat) (flag : Bool) (b b2 : Json),
        net k = .resp 401 b → net (k + 1) = .resp 429 b2 →
      passLoop m (q :: rest) net k flag =
        ⟨.fatal .rateLimited, k + 2,
          [.request m q, .clearCookies, .refreshCookies, .request m q]⟩) ∧
    (∀ (ids : List String) (hasBody : Bool) (net : Nat → HResp) (k : Nat)
        (e : Failure), (passLoop .get ids net k true).res = .fatal e →
      tryQueryIds ids hasBody net k =
        ⟨.fatal e, (passLoop .get ids net k true).next,
          (passLoop .get ids net k true).events⟩) ∧
    (∀ (ids freshIds : List String) (net : Nat → HResp), ids ≠ [] →
        (tryQueryIds ids true net 0).res = .fatal .rateLimited →
      (graphqlRequest ids freshIds net).1 = .inr .rateLimited ∧
      countEv .rescrape (graphqlRequest ids freshIds net).2 = 0) ∧
    (∀ (count : Nat) (v1net : Nat → HResp) (b : Json), v1net 0 = .resp 429 b →
      searchV1 count v1net = (.inr .rateLimited, 1)) := by
  refine ⟨?_, ?_, ?_, ?_, ?_⟩
  · intro m q rest net k flag b hb
    have hs : stepCandidate m q net k = ⟨.fatal .rateLimited, k + 1, [.request m q]⟩ := by
      simp [stepCandidate, hb]
    simp [passLoop, hs]
  · intro m q rest net k flag b b2 hb hb2
    have hs : stepCandidate m q net k =
        ⟨.fatal .rateLimited, k + 2,
          [.request m q, .clearCookies, .refreshCookies, .request m q]⟩ := by
      simp [stepCandidate, hb, hb2]
    simp [passLoop, hs]
  · intro ids hasBody net k e h
    simp [tryQueryIds, h]
  · intro ids freshIds net hne h
    have hids : ids.isEmpty = false := by
      cases ids with
      | nil => exact absurd rfl hne
      | cons a l => rfl
    simp [graphqlRequest, hids, h, (tryQueryIds_no_cache_events ids true net 0).1]
  · intro count v1net b h
    simp [searchV1, h, v1Finish]

/-- C3 (witness): a pass whose first candidate answers 429 stops at once
with the rate-limited failure, one request deep. -/
theorem rate_limited_immediate_no_retry_witness :
    passLoop .get ["q", "r"] (fun _ => .resp 429 .null) 0 true =
      ⟨.fatal .rateLimited, 1, [.request .get "q"]⟩ :=
  rate_limited_immediate_no_retry.1 .get "q" ["r"] (fun _ => .resp 429 .null) 0 true
    .null (by decide)

/-! ## C4: repost nodes read content from the inner tweet -/

/-- C4: on a node carrying a truthy retweeted-status wrapper `rt` (itself
possibly a `TweetWithVisibilityResults` wrapper), `_parse_tweet` builds the
record entirely from the unwrapped inner tweet — text, id, author, creation
time and all counts — while `retweetedBy` is the outer tweet's author
username. -/
theorem parse_tweet_retweet_inner (rt outerCore : Json)
    (rest : List (String × Json)) (htr : truthy rt = true)
    (htext : truthy (((unwrapVisibility rt).getD "legacy" (.obj [])).getD
      "full_text" (.str "")) = true) :
    parseTweet (mkOuterRetweet rt outerCore rest) =
      some { id := ((unwrapVisibility rt).getD "legacy" (.obj [])).getD "id_str"
               ((unwrapVisibility rt).getD "rest_id" (.str "")),
             text := ((unwrapVisibility rt).getD "legacy" (.obj [])).getD
               "full_text" (.str ""),
             author := extractUserInfo ((((unwrapVisibility rt).getD "core"
               (.obj [])).getD "user_results" (.obj [])).getD "result" (.obj [])),
             retweetedBy := (extractUserInfo ((outerCore.getD "user_results"
               (.obj [])).getD "result" (.obj []))).username,
             createdAt := ((unwrapVisibility rt).getD "legacy" (.obj [])).getD
               "created_at" (.str ""),
             replyCount := ((unwrapVisibility rt).getD "legacy" (.obj [])).getD
               "reply_count" (.num 0),
             likeCount := ((unwrapVisibility rt).getD "legacy" (.obj [])).getD
               "favorite_count" (.num 0),
             retweetCount := ((unwrapVisibility rt).getD "legacy" (.obj [])).getD
               "retweet_count" (.num 0),
             viewCount := pyInt ((((unwrapVisibility rt).getD "views"
               (.obj [])).getD "count" (.num 0)).orD (.num 0)) } := by
  have hparts : tweetParts (mkOuterRetweet rt outerCore rest) =
      { legacy := (unwrapVisibility rt).getD "legacy" (.obj []),
        result := unwrapVisibility rt,
        author := extractUserInfo ((((unwrapVisibility rt).getD "core"
          (.obj [])).getD "user_results" (.obj [])).getD "result" (.obj [])),
        retweetedBy := (extractUserInfo ((outerCore.getD "user_results"
          (.obj [])).getD "result" (.obj []))).username } := by
    have houter : unwrapVisibility (mkOuterRetweet rt outerCore rest) =
        mkOuterRetweet rt outerCore rest := by
      simp [unwrapVisibility, mkOuterRetweet, Json.getD, lookupField]
    simp [tweetParts, mkOuterRetweet, Json.getD, lookupField, houter, htr] at *
  simp [parseTweet, hparts, htext]

/-- C4 (witness): outer author alice over an inner tweet by bob with text
hello normalizes to text hello, author bob, reposted by alice. -/
theorem parse_tweet_retweet_inner_witness :
    parseTweet (mkOuterRetweet
      (.obj [("legacy", .obj [("full_text", .str "hello"), ("id_str", .str "42")]),
             ("core", .obj [("user_results", .obj [("result",
               .obj [("core", .obj [("screen_name", .str "bob"),
                                    ("name", .str "Bob")])])])])])
      (.obj [("user_results", .obj [("result",
        .obj [("core", .obj [("screen_name", .str "alice"),
                             ("name", .str "Alice")])])])])
      []) =
    some { id := .str "42", text := .str "hello",
           author := { username := .str "bob", name := .str "Bob" },
           retweetedBy := .str "alice", createdAt := .str "",
           replyCount := .num 0, likeCount := .num 0, retweetCount := .num 0,
           viewCount := 0 } := by
  have h := parse_tweet_retweet_inner
    (.obj [("legacy", .obj [("full_text", .str "hello"), ("id_str", .str "42")]),
           ("core", .obj [("user_results", .obj [("result",
             .obj [("core", .obj [("screen_name", .str "bob"),
                                  ("name", .str "Bob")])])])])])
    (.obj [("user_results", .obj [("result",
      .obj [("core", .obj [("screen_name", .str "alice"),
                           ("name", .str "Alice")])])])])
    [] (by decide) (by decide)
  exact h.trans (by decide)

/-! ## C5: empty-text nodes are dropped, siblings kept -/

theorem concatMap_append (f : α → List β) (l1 l2 : List α) :
    concatMap f (l1 ++ l2) = concatMap f l1 ++ concatMap f l2 := by
  induction l1 with
  | nil => simp [concatMap]
  | cons x xs ih => simp [concatMap, ih]

theorem mem_concatMap (f : α → List β) (l : List α) (b : β) :
    b ∈ concatMap f l ↔ ∃ a ∈ l, b ∈ f a := by
  induction l with
  | nil => simp [concatMap]
  | cons x xs ih => simp [concatMap, ih]

/-- Any record `_parse_tweet` returns passed the non-empty text gate. -/
theorem parseTweet_text_truthy (raw : Json) (t : Tweet)
    (h : parseTweet raw = some t) : truthy t.text = true := by
  simp only [parseTweet] at h
  split_ifs at h with hgate
  · cases h
    exact hgate

/-- Any tweet contributed by a timeline entry is a `_parse_tweet` success. -/
theorem mem_entryTweets_parseTweet (entry : Json) (t : Tweet)
    (h : t ∈ entryTweets entry) : ∃ raw, parseTweet raw = some t := by
  simp only [entryTweets] at h
  rw [List.mem_append] at h
  rcases h with h | h
  · split_ifs at h with hit
    · rw [Option.mem_toList, Option.mem_def] at h
      exact ⟨_, h⟩
    · cases h
  · rw [mem_concatMap] at h
    obtain ⟨item, _, hitem⟩ := h
    split_ifs at hitem with hit2
    · rw [Option.mem_toList, Option.mem_def] at hitem
      exact ⟨_, hitem⟩
    · cases hitem

/-- Any tweet in the normalizer's output is some `_parse_tweet` success. -/
theorem mem_extract_parseTweet (data : Json) (ty : String) (t : Tweet)
    (ht : t ∈ extractTimelineTweets data ty) : ∃ raw, parseTweet raw = some t := by
  unfold extractTimelineTweets at ht
  rw [mem_concatMap] at ht
  obtain ⟨ins, _, hins⟩ := ht
  split_ifs at hins with hty
  · rw [mem_concatMap] at hins
    obtain ⟨entry, _, hentry⟩ := hins
    exact mem_entryTweets_parseTweet entry t hentry
  · cases hins

/-- C5: `_parse_tweet` returns no record exactly when the resolved text
(after any repost unwrapping) is falsy; every record in any normalizer
output has truthy, hence non-empty, text; the normalizer maps entry lists
entrywise, so an entry contributing no record leaves its siblings' records
intact. -/
theorem normalizer_drops_empty_text_keeps_siblings :
    (∀ raw, parseTweet raw = none ↔ truthy (resolvedText raw) = false) ∧
    (∀ (data : Json) (ty : String) (t : Tweet), t ∈ extractTimelineTweets data ty →
      truthy t.text = true ∧ t.text ≠ .str "") ∧
    (∀ (ty : String) (es : List Json),
      extractTimelineTweets (mkTimeline ty es) ty = concatMap entryTweets es) ∧
    (∀ (ty : String) (es1 es2 : List Json) (bad : Json), entryTweets bad = [] →
      extractTimelineTweets (mkTimeline ty (es1 ++ bad :: es2)) ty =
        extractTimelineTweets (mkTimeline ty (es1 ++ es2)) ty) := by
  have hdist : ∀ (ty : String) (es : List Json),
      extractTimelineTweets (mkTimeline ty es) ty = concatMap entryTweets es := by
    intro ty es
    simp [extractTimelineTweets, mkTimeline, findInstructions, findInstructionsList,
      lookupField, toArr, Json.getD, concatMap]
  refine ⟨?_, ?_, hdist, ?_⟩
  · intro raw
    by_cases h : truthy (resolvedText raw) <;>
      simp [parseTweet, resolvedText, h] at *
  · intro data ty t ht
    obtain ⟨raw, hraw⟩ := mem_extract_parseTweet data ty t ht
    have htr := parseTweet_text_truthy raw t hraw
    refine ⟨htr, fun hempty => ?_⟩
    rw [hempty] at htr
    simp [truthy] at htr
  · intro ty es1 es2 bad hbad
    rw [hdist, hdist, concatMap_append, concatMap_append]
    simp [concatMap, hbad]

/-- C5 (witness): an entry whose tweet has empty text contributes nothing,
while its sibling entry's record is unaffected. -/
theorem normalizer_drops_empty_text_keeps_siblings_witness :
    extractTimelineTweets (mkTimeline "TimelineAddEntries"
      ([.obj [("content", .obj [("itemContent", .obj [("itemType", .str "TimelineTweet"),
          ("tweet_results", .obj [("result",
            .obj [("legacy", .obj [("full_text", .str "hi")])])])])])]] ++
        .obj [("content", .obj [("itemContent", .obj [("itemType", .str "TimelineTweet"),
          ("tweet_results", .obj [("result",
            .obj [("legacy", .obj [("full_text", .str "")])])])])])] :: []))
      "TimelineAddEntries" =
    extractTimelineTweets (mkTimeline "TimelineAddEntries"
      ([.obj [("content", .obj [("itemContent", .obj [("itemType", .str "TimelineTweet"),
          ("tweet_results", .obj [("result",
            .obj [("legacy", .obj [("full_text", .str "hi")])])])])])]] ++ []))
      "TimelineAddEntries" :=
  normalizer_drops_empty_text_keeps_siblings.2.2.2 "TimelineAddEntries"
    [.obj [("content", .obj [("itemContent", .obj [("itemType", .str "TimelineTweet"),
        ("tweet_results", .obj [("result",
          .obj [("legacy", .obj [("full_text", .str "hi")])])])])])]]
    []
    (.obj [("content", .obj [("itemContent", .obj [("itemType", .str "TimelineTweet"),
        ("tweet_results", .obj [("result",
          .obj [("legacy", .obj [("full_text", .str "")])])])])])])
    (by decide)

/-! ## C10: search falls back to v1.1 on any GraphQL failure -/

/-- A successful `v1Finish` value is the truncated map of `v1Status`. -/
theorem v1Finish_inl (s : Nat) (b : Json) (n count : Nat) (l : List Tweet)
    (h : (v1Finish s b n count).1 = .inl l) :
    l = ((toArr (b.getD "statuses" (.arr []))).map v1Status).take count := by
  unfold v1Finish at h
  split_ifs at h
  simp_all

/-- A successful `_search_v1` result is the truncated map of `v1Status`
over some response's `statuses`. -/
theorem searchV1_inl (count : Nat) (v1net : Nat → HResp) (l : List Tweet)
    (h : (searchV1 count v1net).1 = .inl l) :
    ∃ b : Json,
      l = ((toArr (Json.getD b "statuses" (.arr []))).map v1Status).take count := by
  unfold searchV1 at h
  rcases hv : v1net 0 with ⟨s, bb⟩ | _
  · simp only [hv] at h
    split_ifs at h with h401
    · rcases hv2 : v1net 1 with ⟨s2, bb2⟩ | _
      · simp only [hv2] at h
        split_ifs at h with h4012
        exact ⟨bb2, v1Finish_inl _ _ _ _ _ h⟩
      · simp only [hv2] at h
        cases h
    · exact ⟨bb, v1Finish_inl _ _ _ _ _ h⟩
  · simp only [hv] at h
    cases h

/-- C10: whenever the GraphQL path of `search` raises — rate-limited,
session-expired, exhaustion, transport, anything — `search` does not
propagate it but returns whatever `_search_v1` produces; and every tweet
record a successful v1.1 fallback produces has `replyCount` 0, `viewCount`
0 and `retweetedBy` null. -/
theorem search_fallback_v1 :
    (∀ (count : Nat) (ids freshIds : List String) (net v1net : Nat → HResp)
        (e : Failure), (graphqlRequest ids freshIds net).1 = .inr e →
      search count ids freshIds net v1net = (searchV1 count v1net).1) ∧
    (∀ (count : Nat) (v1net : Nat → HResp) (l : List Tweet),
        (searchV1 count v1net).1 = .inl l →
      ∀ t ∈ l, t.replyCount = .num 0 ∧ t.viewCount = 0 ∧ t.retweetedBy = .null) := by
  constructor
  · intro count ids freshIds net v1net e h
    simp [search, h]
  · intro count v1net l h t htl
    obtain ⟨b, rfl⟩ := searchV1_inl count v1net l h
    have hmem : t ∈ (toArr (b.getD "statuses" (.arr []))).map v1Status :=
      List.take_subset _ _ htl
    obtain ⟨st, _, rfl⟩ := List.mem_map.1 hmem
    exact ⟨rfl, rfl, rfl⟩

/-- C10 (witness): a rate-limited GraphQL path makes `search` return the
v1.1 result. -/
theorem search_fallback_v1_witness :
    search 10 ["q"] ["r"] (fun _ => .resp 429 .null)
      (fun _ => .resp 200 (.obj [("statuses",
        .arr [.obj [("full_text", .str "hi")]])])) =
    (searchV1 10 (fun _ => .resp 200 (.obj [("statuses",
      .arr [.obj [("full_text", .str "hi")]])]))).1 :=
  search_fallback_v1.1 10 ["q"] ["r"] (fun _ => .resp 429 .null)
    (fun _ => .resp 200 (.obj [("statuses", .arr [.obj [("full_text", .str "hi")]])]))
    .rateLimited (by decide)

/-! ## C6: APPEND segment indices -/

theorem appendsOf_cons (e : UEvent) (xs : List UEvent) :
    appendsOf (e :: xs) =
      (match e with | .appendReq i s => [(i, s)] | _ => []) ++ appendsOf xs := by
  cases e <;> simp [appendsOf]

theorem appendsOf_append (a b : List UEvent) :
    appendsOf (a ++ b) = appendsOf a ++ appendsOf b := by
  simp [appendsOf, List.filterMap_append]

/-- The STATUS poll loop sends no APPEND request. -/
theorem pollLoop_no_append (mediaId pinfo : Json) (polls : Nat → Json)
    (k fuel : Nat) : appendsOf (pollLoop mediaId pinfo polls k fuel).2 = [] := by
  induction fuel generalizing pinfo k with
  | zero =>
    rw [pollLoop]
    split_ifs <;> simp [appendsOf]
  | succ f ih =>
    rw [pollLoop]
    split_ifs <;>
      simp only [appendsOf_cons, List.nil_append] <;>
      first
        | exact ih _ _
        | simp [appendsOf]

/-- The APPEND requests of a chunked upload are exactly the append loop's. -/
theorem chunkedUpload_appends (n : Nat) (i f : Json) (polls : Nat → Json)
    (fuel : Nat) :
    appendsOf (chunkedUpload n i f polls fuel).2 = appendsOf (appendEvents n 0) := by
  simp only [chunkedUpload, appendsOf_cons, appendsOf_append, pollLoop_no_append]
  simp [appendsOf]

/-- Indices of the append loop's requests count up by one from the start
index, as long as the fuel covers the remaining bytes. -/
theorem appendEventsAux_fst (fuel : Nat) :
    ∀ remaining idx, remaining ≤ fuel →
      (appendsOf (appendEventsAux fuel remaining idx)).map Prod.fst =
        List.range' idx (appendsOf (appendEventsAux fuel remaining idx)).length := by
  induction fuel with
  | zero =>
    intro r i _
    simp [appendEventsAux, appendsOf]
  | succ f ih =>
    intro r i hr
    by_cases h0 : r = 0
    · simp [appendEventsAux, h0, appendsOf]
    · have hle : r - CHUNK_SIZE ≤ f := by
        have h1 : 0 < CHUNK_SIZE := by norm_num [CHUNK_SIZE]
        omega
      have hstep : appendEventsAux (f + 1) r i =
          .appendReq i (min CHUNK_SIZE r) ::
            appendEventsAux f (r - CHUNK_SIZE) (i + 1) := by
        simp [appendEventsAux, h0]
      have hcons : appendsOf (appendEventsAux (f + 1) r i) =
          (i, min CHUNK_SIZE r) :: appendsOf (appendEventsAux f (r - CHUNK_SIZE) (i + 1)) := by
        rw [hstep]; simp [appendsOf]
      rw [hcons]
      simp only [List.map_cons, List.length_cons, List.range'_succ]
      rw [ih _ _ hle]

/-- C6: a 10 MB file is appended as exactly three segments — indices
0, 1, 2 with sizes 4 MB, 4 MB, 2 MB in that order — and for every file the
segment indices sent by the chunked upload start at 0 and increase by
exactly 1 per chunk (they are `range` of the number of chunks). -/
theorem chunked_upload_append_segments :
    (∀ (i f : Json) (polls : Nat → Json) (fuel : Nat),
      appendsOf (chunkedUpload (10 * 1024 * 1024) i f polls fuel).2 =
        [(0, 4 * 1024 * 1024), (1, 4 * 1024 * 1024), (2, 2 * 1024 * 1024)]) ∧
    (∀ (n : Nat) (i f : Json) (polls : Nat → Json) (fuel : Nat),
      (appendsOf (chunkedUpload n i f polls fuel).2).map Prod.fst =
        List.range (appendsOf (chunkedUpload n i f polls fuel).2).length) := by
  constructor
  · intro i f polls fuel
    rw [chunkedUpload_appends]
    decide
  · intro n i f polls fuel
    rw [chunkedUpload_appends, List.range_eq_range']
    exact appendEventsAux_fst n n 0 le_rfl

/-! ## C7: processing "failed" stops the upload at once -/

/-- Entering the poll loop on a failed state raises at once: the server's
message is surfaced and no sleep or STATUS request happens. -/
theorem pollLoop_failed (mediaId pinfo : Json) (polls : Nat → Json) (k fuel : Nat)
    (htr : truthy pinfo = true) (hst : pollState pinfo = .str "failed") :
    pollLoop mediaId pinfo polls k fuel = (.procFailed (pollMsg pinfo), []) := by
  rw [pollLoop.eq_def]
  rw [if_neg (by simp [htr, hst]), if_pos hst]

/-- C7: a finalize response whose processing state is "failed" fails the
upload with the server's message, with no STATUS poll and no sleep; a
"failed" state arriving in a poll response stops the loop right there, the
polling step (sleep of the server interval, then STATUS) happens only from
states that are neither "succeeded" nor "failed", and on any other state
shape no sleep or poll happens at all. -/
theorem upload_processing_failed_stops :
    (∀ (n : Nat) (i f : Json) (polls : Nat → Json) (fuel : Nat),
      truthy (f.getD "processing_info" .null) = true →
      pollState (f.getD "processing_info" .null) = .str "failed" →
      chunkedUpload n i f polls fuel =
        (.procFailed (pollMsg (f.getD "processing_info" .null)),
         .initReq :: (appendEvents n 0 ++ [.finalizeReq]))) ∧
    (∀ (mediaId pinfo : Json) (polls : Nat → Json) (k fuel : Nat),
      truthy pinfo = true → pollState pinfo = .str "failed" →
      pollLoop mediaId pinfo polls k fuel = (.procFailed (pollMsg pinfo), [])) ∧
    (∀ (mediaId pinfo : Json) (polls : Nat → Json) (k fuel : Nat),
      inProgress pinfo →
      truthy ((polls k).getD "processing_info" .null) = true →
      pollState ((polls k).getD "processing_info" .null) = .str "failed" →
      pollLoop mediaId pinfo polls k (fuel + 1) =
        (.procFailed (pollMsg ((polls k).getD "processing_info" .null)),
         [.sleeps (pollWait pinfo), .statusReq])) ∧
    (∀ (mediaId pinfo : Json) (polls : Nat → Json) (k fuel : Nat),
      ¬ inProgress pinfo → (pollLoop mediaId pinfo polls k fuel).2 = []) := by
  refine ⟨?_, pollLoop_failed, ?_, ?_⟩
  · intro n i f polls fuel htr hst
    simp [chunkedUpload, pollLoop_failed _ _ polls 0 fuel htr hst]
  · intro mediaId pinfo polls k fuel ⟨htr, hsu, hfa⟩ htr2 hst2
    rw [pollLoop.eq_def]
    rw [if_neg (by simp [htr, hsu]), if_neg hfa]
    simp [pollLoop_failed _ _ polls (k + 1) fuel htr2 hst2]
  · intro mediaId pinfo polls k fuel hnp
    rw [pollLoop.eq_def]
    by_cases h1 : ¬ truthy pinfo = true ∨ pollState pinfo = .str "succeeded"
    · rw [if_pos h1]
    · rw [if_neg h1]
      have hfa : pollState pinfo = .str "failed" := by
        unfold inProgress at hnp
        push_neg at h1 hnp
        exact hnp h1.1 h1.2
      rw [if_pos hfa]

/-- C7 (witness): a finalize response carrying a failed state with a server
message fails the upload at once, with no poll and no sleep. -/
theorem upload_processing_failed_stops_witness :
    chunkedUpload 1 (.obj [("id", .str "m1")])
      (.obj [("processing_info", .obj [("state", .str "failed"),
        ("error", .obj [("message", .str "bad media")])])])
      (fun _ => .null) 7 =
      (.procFailed (.str "bad media"),
       .initReq :: (appendEvents 1 0 ++ [.finalizeReq])) := by
  have h := upload_processing_failed_stops.1 1 (.obj [("id", .str "m1")])
    (.obj [("processing_info", .obj [("state", .str "failed"),
      ("error", .obj [("message", .str "bad media")])])])
    (fun _ => .null) 7 (by decide) (by decide)
  exact h.trans (by decide)

/-! ## C8: small static images take only the simple-upload path -/

/-- C8: a file whose (lowercased) extension is a static-image extension and
whose size is below the simple-upload threshold is uploaded by the single
multipart request alone, returning the identifier of that response; no
INIT, APPEND, FINALIZE or STATUS request is ever issued. -/
theorem simple_upload_single_request (ext : String) (fileSize : Nat)
    (simpleResp i f : Json) (polls : Nat → Json) (fuel : Nat)
    (hext : ext ∈ IMAGE_EXTENSIONS)
    (hsize : fileSize < SIMPLE_UPLOAD_MAX_BYTES) :
    uploadMedia ext fileSize simpleResp i f polls fuel =
      (.okId (simpleResp.getD "id" .null), [.simpleReq]) ∧
    UEvent.initReq ∉ (uploadMedia ext fileSize simpleResp i f polls fuel).2 ∧
    UEvent.finalizeReq ∉ (uploadMedia ext fileSize simpleResp i f polls fuel).2 ∧
    UEvent.statusReq ∉ (uploadMedia ext fileSize simpleResp i f polls fuel).2 ∧
    ∀ idx sz, UEvent.appendReq idx sz ∉
      (uploadMedia ext fileSize simpleResp i f polls fuel).2 := by
  have hcat : mediaCategory ext = "tweet_image" := by
    simp [IMAGE_EXTENSIONS] at hext
    rcases hext with h | h | h | h <;> rw [h] <;> decide
  have hmain : uploadMedia ext fileSize simpleResp i f polls fuel =
      (.okId (simpleResp.getD "id" .null), [.simpleReq]) := by
    simp only [uploadMedia]
    rw [if_pos ⟨hcat, Nat.le_of_lt hsize⟩]
  rw [hmain]
  simp

/-- C8 (witness): a 100-byte png takes the simple path only. -/
theorem simple_upload_single_request_witness :
    uploadMedia ".png" 100 (.obj [("id", .str "77")]) .null .null
      (fun _ => .null) 3 = (.okId (.str "77"), [.simpleReq]) :=
  (simple_upload_single_request ".png" 100 (.obj [("id", .str "77")]) .null .null
    (fun _ => .null) 3 (by decide) (by decide)).1

/-! ## C9: expired cache entries are ignored by the fast path -/

theorem mem_foldl_addUnique (l : List Json) (acc : List Json) (x : Json) :
    x ∈ l.foldl addUnique acc ↔ x ∈ acc ∨ x ∈ l := by
  induction l generalizing acc with
  | nil => simp
  | cons q rest ih =>
    simp only [List.foldl_cons, ih]
    unfold addUnique
    split_ifs with hq
    · simp only [List.mem_cons]
      constructor
      · rintro (h | h)
        · exact Or.inl h
        · exact Or.inr (Or.inr h)
      · rintro (h | rfl | h)
        · exact Or.inl h
        · exact Or.inl hq
        · exact Or.inr h
    · simp only [List.mem_append, List.mem_singleton, List.mem_cons]
      tauto

theorem nodup_foldl_addUnique (l : List Json) (acc : List Json) (h : acc.Nodup) :
    (l.foldl addUnique acc).Nodup := by
  induction l generalizing acc with
  | nil => exact h
  | cons q rest ih =>
    simp only [List.foldl_cons]
    apply ih
    unfold addUnique
    split_ifs with hq
    · exact h
    · simp [List.nodup_append, h, hq]

theorem foldl_addUnique_sublist (l : List Json) :
    ∀ acc, ∃ l', l.foldl addUnique acc = acc ++ l' ∧ l'.Sublist l := by
  induction l with
  | nil => exact fun acc => ⟨[], by simp, List.Sublist.refl []⟩
  | cons q rest ih =>
    intro acc
    simp only [List.foldl_cons]
    unfold addUnique
    split_ifs with hq
    · obtain ⟨l', h1, h2⟩ := ih acc
      exact ⟨l', h1, h2.cons q⟩
    · obtain ⟨l', h1, h2⟩ := ih (acc ++ [q])
      exact ⟨q :: l', by simpa [List.append_assoc] using h1, h2.cons₂ q⟩

/-- C9: when the stored `_scraped_at` is more than the 24-hour TTL before
the current time, the fast path treats the cache as absent — the result is
the same as with no cache file and equals exactly the hardcoded fallbacks,
first occurrences kept, in their given order (a duplicate-free sublist of
the hardcoded list containing all of its elements). -/
theorem expired_cache_ignored (op : String) (hardcoded : List Json) (d : Json)
    (now : Int) (h : now - pyInt (d.getD "_scraped_at" (.num 0)) > CACHE_TTL) :
    getQueryIds op hardcoded (some d) now = hardcoded.foldl addUnique [] ∧
    getQueryIds op hardcoded (some d) now = getQueryIds op hardcoded none now ∧
    (getQueryIds op hardcoded (some d) now).Nodup ∧
    (getQueryIds op hardcoded (some d) now).Sublist hardcoded ∧
    ∀ q ∈ hardcoded, q ∈ getQueryIds op hardcoded (some d) now := by
  have hload : loadCache (some d) now = none := by
    simp [loadCache, h]
  have hbase : getQueryIds op hardcoded (some d) now = hardcoded.foldl addUnique [] := by
    simp [getQueryIds, hload]
  obtain ⟨l', hl1, hl2⟩ := foldl_addUnique_sublist hardcoded []
  refine ⟨hbase, by simp [getQueryIds, hload, loadCache, h], ?_, ?_, ?_⟩
  · rw [hbase]
    exact nodup_foldl_addUnique _ _ List.nodup_nil
  · rw [hbase, hl1]
    simpa using hl2
  · intro q hq
    rw [hbase, mem_foldl_addUnique]
    exact Or.inr hq

/-- C9 (witness): a cache scraped at time 0 queried at TTL + 1 is ignored
and the duplicated hardcoded list comes back deduplicated in order. -/
theorem expired_cache_ignored_witness :
    getQueryIds "SearchTimeline" [.str "a", .str "b", .str "a"]
      (some (.obj [("_scraped_at", .num 0), ("SearchTimeline", .str "cached")]))
      86401 = [.str "a", .str "b"] := by
  have h := expired_cache_ignored "SearchTimeline" [.str "a", .str "b", .str "a"]
    (.obj [("_scraped_at", .num 0), ("SearchTimeline", .str "cached")]) 86401
    (by decide)
  exact h.1.trans (by decide)

end XCli
